import Mathlib

set_option autoImplicit false

/-!
Shallow embedding of the syntax-tree ⇄ token-tree bridge implemented in
`crates/mbe/src/syntax_bridge.rs`: the forward converter (`convert_tokens`,
`parse_to_token_tree`), the reverse converter (`TtTreeSink`), and the
fragment splitter (`parse_exprs_with_sep`), together with the pieces of the
`tt` data model they operate on.
-/

namespace Mbe

/-- Text range with inclusive `start` and exclusive `stop` offset, modelling
`TextRange` of the text-size crate (its `end()` accessor is renamed `stop`,
since `end` is a Lean keyword). Offsets count UTF-8 bytes, as in the source. -/
structure TextRange where
  start : Nat
  stop : Nat
deriving DecidableEq

/-- Models `TextRange::at(offset, len)`. -/
def TextRange.at (offset len : Nat) : TextRange :=
  ⟨offset, offset + len⟩

/-- Models `TextRange::len()`. -/
def TextRange.len (r : TextRange) : Nat :=
  r.stop - r.start

/-- Models `tt::SpanData { range, anchor, ctx }`. -/
structure SpanData (A C : Type) where
  range : TextRange
  anchor : A
  ctx : C
deriving DecidableEq

/-- Models the `SyntaxContext` capability trait: a canonical hygiene-free
`DUMMY` value. -/
class SyntaxContext (C : Type) where
  DUMMY : C

/-- Models the `tt::Span` trait of the `tt` crate (the crate itself is not
among the sampled sources); only its `DUMMY` constant is needed here. -/
class Span (S : Type) where
  DUMMY : S

instance (A C : Type) [Inhabited A] [SyntaxContext C] : Span (SpanData A C) :=
  ⟨⟨⟨0, 0⟩, default, SyntaxContext.DUMMY⟩⟩

instance : SyntaxContext Unit :=
  ⟨()⟩

instance : Span Unit :=
  ⟨()⟩

/-- Models `tt::Spacing`. -/
inductive Spacing where
  | Alone
  | Joint
deriving DecidableEq

/-- Models `tt::DelimiterKind`. -/
inductive DelimiterKind where
  | Parenthesis
  | Brace
  | Bracket
  | Invisible
deriving DecidableEq

/-- Models `tt::Delimiter { open, close, kind }`. -/
structure Delimiter (S : Type) where
  «open» : S
  close : S
  kind : DelimiterKind
deriving DecidableEq

/-- Models `tt::Delimiter::UNSPECIFIED`: an invisible delimiter with dummy
open/close spans. -/
def Delimiter.UNSPECIFIED {S : Type} [Span S] : Delimiter S :=
  ⟨Span.DUMMY, Span.DUMMY, .Invisible⟩

/-- Models `tt::Delimiter::unspecified()`, which returns `UNSPECIFIED`. -/
def Delimiter.unspecified {S : Type} [Span S] : Delimiter S :=
  Delimiter.UNSPECIFIED

/-- Models `tt::Punct`. -/
structure Punct (S : Type) where
  char : Char
  spacing : Spacing
  span : S
deriving DecidableEq

/-- Models `tt::Ident`. -/
structure Ident (S : Type) where
  text : String
  span : S
deriving DecidableEq

/-- Models `tt::Literal`. -/
structure Literal (S : Type) where
  text : String
  span : S
deriving DecidableEq

/-- Models `tt::Leaf`. -/
inductive Leaf (S : Type) where
  | literal (l : Literal S)
  | punct (p : Punct S)
  | ident (i : Ident S)
deriving DecidableEq

/-- Models `tt::TokenTree`: a leaf or a delimited subtree (the subtree's
`delimiter` and `token_trees` fields are carried directly). -/
inductive TokenTree (S : Type) where
  | leaf (l : Leaf S)
  | subtree (delimiter : Delimiter S) (tokenTrees : List (TokenTree S))

/-- Models `tt::Subtree { delimiter, token_trees }`. -/
structure Subtree (S : Type) where
  delimiter : Delimiter S
  tokenTrees : List (TokenTree S)

/-- The coercion of a `Subtree` into a `TokenTree` (`subtree.into()`). -/
def Subtree.tt {S : Type} (s : Subtree S) : TokenTree S :=
  .subtree s.delimiter s.tokenTrees

/-- The subset of `SyntaxKind` exercised by the bridge: the single-character
punctuation kinds produced by the lexer, plus the token and node kinds the
converters inspect. -/
inductive SyntaxKind where
  | SEMICOLON
  | COMMA
  | L_PAREN
  | R_PAREN
  | L_CURLY
  | R_CURLY
  | L_BRACK
  | R_BRACK
  | L_ANGLE
  | R_ANGLE
  | AT
  | POUND
  | TILDE
  | QUESTION
  | DOLLAR
  | AMP
  | PIPE
  | PLUS
  | STAR
  | SLASH
  | CARET
  | PERCENT
  | UNDERSCORE
  | DOT
  | COLON
  | EQ
  | BANG
  | MINUS
  | LIFETIME_IDENT
  | IDENT
  | COMMENT
  | WHITESPACE
  | ERROR
  | INT_NUMBER
  | FLOAT_NUMBER
  | STRING
  | CHAR
  | TRUE_KW
  | FALSE_KW
  | FN_KW
  | LET_KW
  | NAME_REF
deriving DecidableEq

namespace SyntaxKind

/-- Models the generated `SyntaxKind::is_punct` restricted to the kinds above
(in the generated code every single-character punctuation kind, `_` included,
is a punct). -/
def is_punct : SyntaxKind → Bool
  | SEMICOLON | COMMA | L_PAREN | R_PAREN | L_CURLY | R_CURLY | L_BRACK
  | R_BRACK | L_ANGLE | R_ANGLE | AT | POUND | TILDE | QUESTION | DOLLAR
  | AMP | PIPE | PLUS | STAR | SLASH | CARET | PERCENT | UNDERSCORE | DOT
  | COLON | EQ | BANG | MINUS => true
  | _ => false

/-- Models the generated `SyntaxKind::is_keyword` restricted to the kinds
above. -/
def is_keyword : SyntaxKind → Bool
  | TRUE_KW | FALSE_KW | FN_KW | LET_KW => true
  | _ => false

/-- Models the generated `SyntaxKind::is_literal` restricted to the kinds
above. -/
def is_literal : SyntaxKind → Bool
  | INT_NUMBER | FLOAT_NUMBER | STRING | CHAR => true
  | _ => false

end SyntaxKind

/-- Models `is_single_token_op` from `syntax_bridge.rs`. -/
def is_single_token_op : SyntaxKind → Bool
  | .EQ | .L_ANGLE | .R_ANGLE | .BANG | .AMP | .PIPE | .TILDE | .AT | .DOT
  | .COMMA | .SEMICOLON | .COLON | .POUND | .DOLLAR | .QUESTION | .PLUS
  | .MINUS | .STAR | .SLASH | .PERCENT | .CARET | .LIFETIME_IDENT => true
  | _ => false

/-- Models `ast::CommentShape`. -/
inductive CommentShape where
  | Line
  | Block
deriving DecidableEq

/-- Models `ast::CommentPlacement`. -/
inductive CommentPlacement where
  | Inner
  | Outer
deriving DecidableEq

/-- The comment metadata `ast::Comment` exposes to the converter: the length
of the leading marker (`comment.prefix().len()`, in bytes — all markers are
ASCII so bytes coincide with characters), the shape, and whether this is a
doc comment (`comment.kind().doc`). -/
structure CommentInfo where
  markerLen : Nat
  shape : CommentShape
  doc : Option CommentPlacement
deriving DecidableEq

/-- One token handed to `convert_tokens` by a `TokenConverter`: its
`SyntaxKind`, its text (`to_text`; `to_char` is its first character), the
relative and absolute ranges produced by `bump`, and — for `COMMENT` tokens —
the result of `ast::Comment::cast`. -/
structure Token where
  kind : SyntaxKind
  text : String
  relRange : TextRange
  absRange : TextRange
  comment : Option CommentInfo
deriving DecidableEq

/-- Models `char::escape_debug` as used by `str::escape_debug` in
`doc_comment_text`: the named escapes for the usual control and quote
characters, a `\u` escape for the remaining C0 controls and DEL, and the
character itself otherwise. (The unicode-table-driven escaping of
non-printable characters beyond ASCII is elided; doc-comment bodies are
printable text.) -/
def escapeDebugChar (c : Char) : String :=
  if c = '\t' then "\\t"
  else if c = '\r' then "\\r"
  else if c = '\n' then "\\n"
  else if c = '\\' then "\\\\"
  else if c = '\'' then "\\'"
  else if c = '\"' then "\\\""
  else if c.val < 32 ∨ c.val = 127 then
    "\\u\x7b" ++ (Nat.toDigits 16 c.toNat).asString ++ "\x7d"
  else String.singleton c

/-- Models `str::escape_debug` (character-wise `escapeDebugChar`). -/
def escapeDebug (s : String) : String :=
  String.join (s.toList.map escapeDebugChar)

/-- Models `doc_comment_text`: strip the leading marker, strip the trailing
`*/` of block comments, escape, and wrap in double quotes. -/
def doc_comment_text (comment : CommentInfo) (text : String) : String :=
  let text1 := text.drop comment.markerLen
  let text2 :=
    match comment.shape with
    | .Block => text1.dropRight 2
    | .Line => text1
  "\"" ++ escapeDebug text2 ++ "\""

/-- Models `convert_doc_comment`: `None` unless the token is a doc comment;
otherwise the token sequence `#`, `!` for inner placement, and a
bracket-delimited subtree holding `doc`, `=` and the quoted, escaped text. -/
def convert_doc_comment {S : Type} (token : Token) (span : S) :
    Option (List (TokenTree S)) := do
  let comment ← token.comment
  let doc ← comment.doc
  let mk_ident := fun (s : String) => TokenTree.leaf (.ident ⟨s, span⟩)
  let mk_punct := fun (c : Char) => TokenTree.leaf (.punct ⟨c, .Alone, span⟩)
  let mk_doc_literal :=
    TokenTree.leaf (.literal ⟨doc_comment_text comment token.text, span⟩)
  let meta_tkns := [mk_ident "doc", mk_punct '=', mk_doc_literal]
  let token_trees :=
    [mk_punct '#']
      ++ (match doc with
          | .Inner => [mk_punct '!']
          | .Outer => [])
      ++ [TokenTree.subtree ⟨span, span, .Bracket⟩ meta_tkns]
  pure token_trees

/-- The closing-delimiter kind the innermost frame expects (the `expected`
match inside the punctuation branch of `convert_tokens`). -/
def expectedCloser (k : DelimiterKind) : Option SyntaxKind :=
  match k with
  | .Parenthesis => some .R_PAREN
  | .Brace => some .R_CURLY
  | .Bracket => some .R_BRACK
  | .Invisible => none

/-- The delimiter kind opened by a punctuation token (the `delim` match inside
`convert_tokens`). -/
def openerDelim (k : SyntaxKind) : Option DelimiterKind :=
  match k with
  | .L_PAREN => some .Parenthesis
  | .L_CURLY => some .Brace
  | .L_BRACK => some .Bracket
  | _ => none

/-- The `NonEmptyVec` stack of subtree frames: the head is the innermost
frame (`last_mut`), the list holds the outer frames. -/
abbrev Stack (A C : Type) := Subtree (SpanData A C) × List (Subtree (SpanData A C))

/-- The body of the main iteration of `convert_tokens` for one token, with
`peek` the lookahead token (`conv.peek()`).  The local `mk_dummy_span` of the
source — `⟨token.relRange, anchor, SyntaxContext.DUMMY⟩` — is written out at
each use site.  `none` models a panic: a punctuation token whose `to_char` is
`None` (`panic!("Token from lexer must be single char")`), or a
`LIFETIME_IDENT` token on which the byte slice `to_text()[1..]` is out of
bounds or not on a character boundary. -/
def convertStep {A C : Type} [SyntaxContext C] (anchor : A)
    (spanFor : TextRange → Option (SpanData A C)) (token : Token)
    (peek : Option Token) : Stack A C → Option (Stack A C)
  | (top, stk) =>
    if token.kind = .COMMENT then
      -- Desugar doc comments into doc attributes
      match convert_doc_comment token
          ((spanFor token.absRange).getD ⟨token.relRange, anchor, SyntaxContext.DUMMY⟩) with
      | some tokens => some ({ top with tokenTrees := top.tokenTrees ++ tokens }, stk)
      | none => some (top, stk)
    else if token.kind.is_punct ∧ token.kind ≠ .UNDERSCORE then
      if expectedCloser top.delimiter.kind = some token.kind then
        -- Current token is the closing delimiter we expect: fix up the
        -- closing span and end the subtree here
        match stk with
        | parent :: stk' =>
            some ({ parent with
                tokenTrees := parent.tokenTrees ++
                  [(Subtree.tt { top with
                    delimiter := { top.delimiter with
                      close := (spanFor token.absRange).getD
                        ⟨token.relRange, anchor, SyntaxContext.DUMMY⟩ } })] },
              stk')
        | [] => some (top, stk)
      else
        match openerDelim token.kind with
        | some dk =>
            -- Start a new subtree; the close span is overwritten on close
            some (⟨⟨(spanFor token.absRange).getD ⟨token.relRange, anchor, SyntaxContext.DUMMY⟩,
                ⟨token.relRange, anchor, SyntaxContext.DUMMY⟩, dk⟩, []⟩,
              top :: stk)
        | none =>
            match token.text.toList.head? with
            | none => none
            | some c =>
                some ({ top with
                    tokenTrees := top.tokenTrees ++
                      [.leaf (.punct ⟨c,
                        match peek with
                        | some next =>
                            if is_single_token_op next.kind then Spacing.Joint else .Alone
                        | none => Spacing.Alone,
                        (spanFor token.absRange).getD
                          ⟨token.relRange, anchor, SyntaxContext.DUMMY⟩⟩)] },
                  stk)
    else if token.kind = .TRUE_KW ∨ token.kind = .FALSE_KW then
      some ({ top with tokenTrees := top.tokenTrees ++
        [.leaf (.ident ⟨token.text,
          (spanFor token.absRange).getD ⟨token.relRange, anchor, SyntaxContext.DUMMY⟩⟩)] }, stk)
    else if token.kind = .IDENT then
      some ({ top with tokenTrees := top.tokenTrees ++
        [.leaf (.ident ⟨token.text,
          (spanFor token.absRange).getD ⟨token.relRange, anchor, SyntaxContext.DUMMY⟩⟩)] }, stk)
    else if token.kind = .UNDERSCORE then
      some ({ top with tokenTrees := top.tokenTrees ++
        [.leaf (.ident ⟨token.text,
          (spanFor token.absRange).getD ⟨token.relRange, anchor, SyntaxContext.DUMMY⟩⟩)] }, stk)
    else if token.kind.is_keyword then
      some ({ top with tokenTrees := top.tokenTrees ++
        [.leaf (.ident ⟨token.text,
          (spanFor token.absRange).getD ⟨token.relRange, anchor, SyntaxContext.DUMMY⟩⟩)] }, stk)
    else if token.kind.is_literal then
      some ({ top with tokenTrees := top.tokenTrees ++
        [.leaf (.literal ⟨token.text,
          (spanFor token.absRange).getD ⟨token.relRange, anchor, SyntaxContext.DUMMY⟩⟩)] }, stk)
    else if token.kind = .LIFETIME_IDENT then
      -- The quote leaf falls back to the first character's sliced range, the
      -- identifier leaf to the remainder's
      match token.text.toList with
      | [] => none
      | c :: cs =>
        if c.utf8Size = 1 then
          some ({ top with tokenTrees := top.tokenTrees ++
            [.leaf (.punct ⟨'\'', .Joint,
              (spanFor token.absRange).getD
                ⟨TextRange.at token.relRange.start 1, anchor, SyntaxContext.DUMMY⟩⟩),
             .leaf (.ident ⟨String.mk cs,
              (spanFor token.absRange).getD
                ⟨TextRange.at (token.relRange.start + 1) (token.relRange.len - 1),
                  anchor, SyntaxContext.DUMMY⟩⟩)] }, stk)
        else none
    else some (top, stk)

/-- The main iteration of `convert_tokens`: `convertStep` on each token in
turn, with the rest of the stream supplying the lookahead. -/
def convertLoop {A C : Type} [SyntaxContext C] (anchor : A)
    (spanFor : TextRange → Option (SpanData A C)) :
    List Token → Stack A C → Option (Stack A C)
  | [], stack => some stack
  | token :: rest, st =>
    match convertStep anchor spanFor token rest.head? st with
    | none => none
    | some st' => convertLoop anchor spanFor rest st'

/-- The opening-delimiter character a popped surplus frame is turned into by
the recovery step of `convert_tokens`. -/
def openChar (k : DelimiterKind) : Char :=
  match k with
  | .Parenthesis => '('
  | .Brace => '\x7b'
  | .Bracket => '['
  | .Invisible => '$'

/-- The end-of-input recovery of `convert_tokens`: while the stack still pops
(more than one frame), turn the popped frame into a `Punct` leaf holding its
opening-delimiter character followed by its children, merged into the parent
frame. -/
def mergeStack {S : Type} : Subtree S → List (Subtree S) → Subtree S
  | top, [] => top
  | top, parent :: rest =>
    let leaf : TokenTree S :=
      .leaf (.punct ⟨openChar top.delimiter.kind, .Alone, top.delimiter.«open»⟩)
    mergeStack { parent with tokenTrees := parent.tokenTrees ++ (leaf :: top.tokenTrees) } rest

/-- The final collapse of `convert_tokens`: a root whose only child is itself
a subtree is replaced by that child. -/
def collapseRoot {S : Type} (subtree : Subtree S) : Subtree S :=
  match subtree.tokenTrees with
  | [TokenTree.subtree d ts] => ⟨d, ts⟩
  | _ => subtree

/-- The seed frame of `convert_tokens`: an unspecified-delimiter subtree with
no children. -/
def entrySubtree {A C : Type} [Inhabited A] [SyntaxContext C] :
    Subtree (SpanData A C) :=
  ⟨Delimiter.UNSPECIFIED, []⟩

/-- Models `convert_tokens`: run the main loop from the seed frame, then merge
surplus frames and collapse a redundant root wrapper.  `none` models the
panics listed at `convertLoop`. -/
def convert_tokens {A C : Type} [Inhabited A] [SyntaxContext C] (anchor : A)
    (spanFor : TextRange → Option (SpanData A C)) (toks : List Token) :
    Option (Subtree (SpanData A C)) :=
  match convertLoop anchor spanFor toks (entrySubtree, []) with
  | none => none
  | some st => some (collapseRoot (mergeStack st.1 st.2))

/-- The well-formedness every token produced by the real lexer enjoys: its
text is non-empty, and a lifetime token starts with a one-byte character (the
quote), so that the byte slice `to_text()[1..]` taken by `convert_tokens` is
in bounds and on a character boundary. -/
def lexerToken (t : Token) : Bool :=
  !t.text.toList.isEmpty &&
    (!(t.kind == SyntaxKind.LIFETIME_IDENT) ||
      (match t.text.toList with
       | [] => false
       | c :: _ => c.utf8Size == 1))

/-- Modelled from the spec: `parser::LexedStr` (the lexer crate is not under
`src/`).  Per §6 it exposes the lexed token stream and "reports whether any
lexical error was observed"; its tokens tile the input text, so each has
non-empty text and lifetime tokens start with the one-byte quote character
(`wf`). -/
structure LexedStr where
  tokens : List Token
  errors : List String
  wf : ∀ t ∈ tokens, lexerToken t = true

/-- Models `parse_to_token_tree`: return `none` when the lexer reported any
error, otherwise convert.  The `RawConverter` used here answers `none` to
every `span_for` query. -/
def parse_to_token_tree {A C : Type} [Inhabited A] [SyntaxContext C]
    (anchor : A) (lexed : LexedStr) : Option (Subtree (SpanData A C)) :=
  if lexed.errors ≠ [] then none
  else convert_tokens anchor (fun _ => none) lexed.tokens

/-- Modelled from the spec: one position of the `tt::buffer::Cursor` over a
`TokenBuffer` (the `tt` crate is not under `src/`).  Per §3 the cursor is a
"forward-and-descend-only view" supporting bump, descend-into-subtree and
ascend-on-exhaustion, so a traversal is the flattened sequence of leaves,
subtree entries (where `token_tree()` reports the subtree) and subtree ends
(where `token_tree()` reports nothing and `end()` reports the parent). -/
inductive CursorAtom (S : Type) where
  | leaf (l : Leaf S)
  | enter (d : Delimiter S)
  | leave (d : Delimiter S)
deriving DecidableEq

mutual

/-- The cursor traversal of one token tree (see `CursorAtom`). -/
def flattenTree {S : Type} : TokenTree S → List (CursorAtom S)
  | .leaf l => [.leaf l]
  | .subtree d ts => .enter d :: (flattenTrees ts ++ [.leave d])

/-- The cursor traversal of a token-tree sequence (see `CursorAtom`). -/
def flattenTrees {S : Type} : List (TokenTree S) → List (CursorAtom S)
  | [] => []
  | t :: ts => flattenTree t ++ flattenTrees ts

end

/-- One call on the `SyntaxTreeBuilder` made by `TtTreeSink`; the rebuilt
syntax tree is determined by this event sequence. -/
inductive BuilderEvent where
  | startNode (kind : SyntaxKind)
  | finishNode
  | token (kind : SyntaxKind) (text : String)
  | error (msg : String) (pos : Nat)
deriving DecidableEq

/-- Models `TtTreeSink`: the pending one-token text buffer, the cursor over
the token buffer, the output text position, the builder call sequence, and
the span map under construction. -/
structure TtTreeSink (S : Type) where
  buf : String
  cursor : List (CursorAtom S)
  text_pos : Nat
  inner : List BuilderEvent
  token_map : List (TextRange × S)

/-- Models `TtTreeSink::new`. -/
def TtTreeSink.new {S : Type} (cursor : List (CursorAtom S)) : TtTreeSink S :=
  ⟨"", cursor, 0, [], []⟩

/-- Models `delim_to_str`: the textual form of one side of a delimiter;
invisible delimiters have none.  (The source slices the two-character
strings `"()"`, `"{}"`, `"[]"`.) -/
def delim_to_str (d : DelimiterKind) (closing : Bool) : Option String :=
  match d with
  | .Parenthesis => some (if closing then ")" else "(")
  | .Brace => some (if closing then "\x7d" else "\x7b")
  | .Bracket => some (if closing then "]" else "[")
  | .Invisible => none

/-- The inner `loop` of `TtTreeSink::token`: produce the text and span of the
next consumed cursor atom, descending into and ascending out of invisible
delimiters without producing text.  `none` models the panics: the cursor
exhausted mid-consumption (`end().unwrap()`), or a `Punct` leaf whose
character is not ASCII (`assert!(punct.char.is_ascii())`). -/
def sinkNextText {S : Type} : List (CursorAtom S) → Option (String × S × List (CursorAtom S))
  | [] => none
  | .leaf (Leaf.ident i) :: rest => some (i.text, i.span, rest)
  | .leaf (Leaf.punct p) :: rest =>
      if p.char.val ≤ 127 then some (String.singleton p.char, p.span, rest) else none
  | .leaf (Leaf.literal lit) :: rest => some (lit.text, lit.span, rest)
  | .enter d :: rest =>
      match delim_to_str d.kind false with
      | some s => some (s, d.«open», rest)
      | none => sinkNextText rest
  | .leave d :: rest =>
      match delim_to_str d.kind true with
      | some s => some (s, d.close, rest)
      | none => sinkNextText rest

/-- The `for _ in 0..n_tokens` loop of `TtTreeSink::token`: consume up to `n`
atoms (stopping early at eof), appending each text to the buffer, recording a
span-map entry at its emitted position, and remembering in `last` the cursor
as it stood at the start of the final iteration.  Returns the new buffer,
text position, span map, cursor and `last`. -/
def consumeN {S : Type} :
    Nat → List (CursorAtom S) → List (CursorAtom S) → Nat → String →
    List (TextRange × S) →
    Option (String × Nat × List (TextRange × S) × List (CursorAtom S) × List (CursorAtom S))
  | 0, cursor, last, pos, buf, tmap => some (buf, pos, tmap, cursor, last)
  | _ + 1, [], last, pos, buf, tmap => some (buf, pos, tmap, [], last)
  | n + 1, a :: cursor, _, pos, buf, tmap =>
    match sinkNextText (a :: cursor) with
    | none => none
    | some (text, span, cursor') =>
        consumeN n cursor' (a :: cursor) (pos + text.utf8ByteSize) (buf ++ text)
          (tmap ++ [(TextRange.at pos text.utf8ByteSize, span)])

/-- The "add whitespace between adjoint puncts" test of `TtTreeSink::token`:
the atom at `last` and the one after it are both `Punct` leaves, the first is
`Alone`-spaced, is not `;`, and the second is not the lifetime quote. -/
def wsBetween {S : Type} (last : List (CursorAtom S)) : Bool :=
  match last.head?, (last.drop 1).head? with
  | some (.leaf (.punct curr)), some (.leaf (.punct next)) =>
      curr.spacing == Spacing.Alone && curr.char != ';' && next.char != '\''
  | _, _ => false

/-- The text a single leaf contributes in `TtTreeSink::token`: the ident or
literal text, or the one-character string of a punct. -/
def leafText {S : Type} : Leaf S → String
  | .ident i => i.text
  | .literal l => l.text
  | .punct p => String.singleton p.char

/-- The span recorded for a single leaf in `TtTreeSink::token`. -/
def leafSpan {S : Type} : Leaf S → S
  | .ident i => i.span
  | .literal l => l.span
  | .punct p => p.span

/-- Models `TtTreeSink::token` (the handler of a `Consume` parser event):
override the token count to 2 for lifetime kinds, consume that many cursor
atoms into the buffer, emit one output token holding the buffer, and
synthesize a single whitespace token when `wsBetween` holds of the final
consumed position.  `none` models the panics listed at `sinkNextText`. -/
def TtTreeSink.token {S : Type} (sink : TtTreeSink S) (kind : SyntaxKind)
    (n_tokens0 : Nat) : Option (TtTreeSink S) :=
  let n_tokens := if kind = .LIFETIME_IDENT then 2 else n_tokens0
  match consumeN n_tokens sink.cursor sink.cursor sink.text_pos sink.buf sink.token_map with
  | none => none
  | some (buf, pos, tmap, cursor, last) =>
    let inner := sink.inner ++ [.token kind buf]
    if wsBetween last then
      some ⟨"", cursor, pos + 1, inner ++ [.token .WHITESPACE " "], tmap⟩
    else
      some ⟨"", cursor, pos, inner, tmap⟩

/-- Models `str::split_once('.')` on the character list. -/
def split_once_dot_aux : List Char → Option (List Char × List Char)
  | [] => none
  | c :: cs =>
    if c = '.' then some ([], cs)
    else
      match split_once_dot_aux cs with
      | some (l, r) => some (c :: l, r)
      | none => none

/-- Models `str::split_once('.')`: the text around the first dot, when the
text contains one. -/
def split_once_dot (s : String) : Option (String × String) :=
  (split_once_dot_aux s.toList).map (fun lr => (String.mk lr.1, String.mk lr.2))

/-- Models `TtTreeSink::float_split` (the handler of a `FloatSplit` parser
event).  `none` models its `unreachable!` arms (cursor not at a literal leaf,
no dot in the text) and its assertions (`left` empty, or `has_pseudo_dot`
disagreeing with the emptiness of `right`). -/
def TtTreeSink.float_split {S : Type} (sink : TtTreeSink S)
    (has_pseudo_dot : Bool) : Option (TtTreeSink S) :=
  match sink.cursor with
  | CursorAtom.leaf (Leaf.literal lit) :: rest =>
    match split_once_dot lit.text with
    | some (left, right) =>
      if left = "" then none
      else
        let inner := sink.inner ++
          [.startNode .NAME_REF, .token .INT_NUMBER left, .finishNode, .finishNode,
           .token .DOT "."]
        if has_pseudo_dot then
          if right = "" then some { sink with inner := inner, cursor := rest }
          else none
        else
          if right = "" then none
          else
            some { sink with
              inner := inner ++
                [.startNode .NAME_REF, .token .INT_NUMBER right, .finishNode, .finishNode],
              cursor := rest }
    | none => none
  | _ => none

/-- Models `TtTreeSink::start_node`. -/
def TtTreeSink.start_node {S : Type} (sink : TtTreeSink S) (kind : SyntaxKind) :
    TtTreeSink S :=
  { sink with inner := sink.inner ++ [.startNode kind] }

/-- Models `TtTreeSink::finish_node`. -/
def TtTreeSink.finish_node {S : Type} (sink : TtTreeSink S) : TtTreeSink S :=
  { sink with inner := sink.inner ++ [.finishNode] }

/-- Models `TtTreeSink::error`: attach the message at the current output-text
position. -/
def TtTreeSink.error {S : Type} (sink : TtTreeSink S) (msg : String) :
    TtTreeSink S :=
  { sink with inner := sink.inner ++ [.error msg sink.text_pos] }

/-- Modelled from the spec: the expression parser behind
`TtIter::expect_fragment(parser::PrefixEntryPoint::Expr)` (the parser crate
and `tt_iter` module are not under `src/`).  Per §4.3 it attempts to parse
one expression fragment from the current cursor position, consuming the
fragment's tokens — so on success the remainder is a strictly shorter suffix
of the input. -/
structure ExprEntryPoint (S : Type) where
  parse : List (TokenTree S) → Option (TokenTree S × List (TokenTree S))
  parse_consumes : ∀ ts t rest, parse ts = some (t, rest) → rest.length < ts.length
  parse_suffix : ∀ ts t rest, parse ts = some (t, rest) → rest.IsSuffix ts

/-- Modelled from the spec: `TtIter::expect_char` — "attempt to consume
exactly one separator character" (§4.3): succeed exactly when the next token
tree is a `Punct` leaf with that character, consuming it. -/
def expect_char {S : Type} (sep : Char) : List (TokenTree S) → Option (List (TokenTree S))
  | TokenTree.leaf (Leaf.punct p) :: rest => if p.char = sep then some rest else none
  | _ => none

/-- Modelled from the spec: `tt::TokenTree::subtree_or_wrap` (the `tt` crate
is not under `src/`): a subtree is returned as is; a leaf is wrapped into an
unspecified-delimiter subtree. -/
def subtree_or_wrap {S : Type} [Span S] : TokenTree S → Subtree S
  | .subtree d ts => ⟨d, ts⟩
  | .leaf l => ⟨Delimiter.unspecified, [.leaf l]⟩

/-- The `while iter.peek_n(0).is_some()` loop of `parse_exprs_with_sep`:
parse a fragment (stopping, without consuming, when the parser yields
nothing), push it, then try one separator on a fork of the cursor, committing
the fork only on success.  Returns the fragments and the unconsumed
remainder. -/
def parseExprsLoop {S : Type} [Span S] (p : ExprEntryPoint S) (sep : Char) :
    List (TokenTree S) → List (Subtree S) × List (TokenTree S)
  | [] => ([], [])
  | t0 :: ts0 =>
    match h : p.parse (t0 :: ts0) with
    | none => ([], t0 :: ts0)
    | some (t, rest) =>
      let frag := subtree_or_wrap t
      match h2 : expect_char sep rest with
      | none => ([frag], rest)
      | some rest' =>
        let res := parseExprsLoop p sep rest'
        (frag :: res.1, res.2)
termination_by ts => ts.length
decreasing_by
  have hc := p.parse_consumes _ _ _ h
  have hlen : rest'.length < rest.length := by
    unfold expect_char at h2
    repeat' split at h2
    all_goals simp_all
  simp only [List.length_cons] at hc ⊢
  omega

/-- Models `parse_exprs_with_sep`: empty subtrees yield no fragments; the
remainder left by the loop, when non-empty, is wrapped into one final
unspecified-delimiter subtree. -/
def parse_exprs_with_sep {S : Type} [Span S] (tt : Subtree S) (sep : Char)
    (p : ExprEntryPoint S) : List (Subtree S) :=
  if tt.tokenTrees.isEmpty then []
  else
    let res := parseExprsLoop p sep tt.tokenTrees
    res.1 ++ (if res.2.isEmpty then [] else [⟨Delimiter.unspecified, res.2⟩])

/-! ## Supporting lemmas -/

/-- The token-tree sequence the recovery step splices in for a list of
surplus frames, outermost first: for each frame, a `Punct` leaf holding its
opening-delimiter character followed by the frame's children. -/
def surplusTokens {S : Type} (fs : List (Subtree S)) : List (TokenTree S) :=
  (fs.map (fun f =>
    TokenTree.leaf (.punct ⟨openChar f.delimiter.kind, .Alone, f.delimiter.«open»⟩)
      :: f.tokenTrees)).flatten

theorem surplusTokens_append {S : Type} (xs ys : List (Subtree S)) :
    surplusTokens (xs ++ ys) = surplusTokens xs ++ surplusTokens ys := by
  simp [surplusTokens]

/-- Closed form of the recovery loop: with the stack listed innermost-first
as `front ++ [bottom]`, the merge keeps the bottom frame and appends, for
each surplus frame from outermost to innermost, its opening-delimiter
`Punct` leaf followed by its children. -/
theorem mergeStack_append {S : Type} :
    ∀ (rest : List (Subtree S)) (top : Subtree S) (front : List (Subtree S))
      (bottom : Subtree S),
      top :: rest = front ++ [bottom] →
      mergeStack top rest =
        ⟨bottom.delimiter, bottom.tokenTrees ++ surplusTokens front.reverse⟩ := by
  intro rest
  induction rest with
  | nil =>
    intro top front bottom h
    cases front with
    | nil =>
      simp only [List.nil_append, List.cons.injEq] at h
      simp [mergeStack, surplusTokens, h.1]
    | cons f fs =>
      simp only [List.cons_append, List.cons.injEq] at h
      exact absurd h.2 (by simp)
  | cons p rs ih =>
    intro top front bottom h
    cases front with
    | nil =>
      simp only [List.nil_append, List.cons.injEq] at h
      exact absurd h.2 (by simp)
    | cons f fs =>
      simp only [List.cons_append, List.cons.injEq] at h
      obtain ⟨hf, hrest⟩ := h
      subst hf
      cases fs with
      | nil =>
        simp only [List.nil_append, List.cons.injEq] at hrest
        obtain ⟨hp, hrs⟩ := hrest
        subst hp; subst hrs
        simp [mergeStack, surplusTokens]
      | cons g gs =>
        simp only [List.cons_append, List.cons.injEq] at hrest
        obtain ⟨hp, hrs⟩ := hrest
        subst hp
        show mergeStack _ rs = _
        rw [ih _ (⟨p.delimiter,
              p.tokenTrees ++
                (TokenTree.leaf (.punct ⟨openChar top.delimiter.kind, .Alone,
                  top.delimiter.«open»⟩) :: top.tokenTrees)⟩ :: gs) bottom
            (by simpa using hrs)]
        simp [surplusTokens_append, surplusTokens]

theorem collapseRoot_single {S : Type} (s : Subtree S) (d : Delimiter S)
    (ts : List (TokenTree S)) (h : s.tokenTrees = [TokenTree.subtree d ts]) :
    collapseRoot s = ⟨d, ts⟩ := by
  unfold collapseRoot
  split
  · next d' ts' heq =>
      rw [h] at heq
      simp only [List.cons.injEq, TokenTree.subtree.injEq, and_true] at heq
      obtain ⟨h1, h2⟩ := heq
      subst h1; subst h2; rfl
  · next hne => exact absurd h (by intro hc; exact hne d ts hc)

theorem collapseRoot_other {S : Type} (s : Subtree S)
    (h : ∀ (d : Delimiter S) (ts : List (TokenTree S)),
      s.tokenTrees ≠ [TokenTree.subtree d ts]) :
    collapseRoot s = s := by
  unfold collapseRoot
  split
  · next d ts heq => exact absurd heq (h d ts)
  · rfl

set_option maxHeartbeats 2000000 in
/-- `convertStep` never fails on a token satisfying the lexer's guarantees:
the only `none` exits need an empty-text punctuation token or a malformed
lifetime token. -/
theorem convertStep_total {A C : Type} [SyntaxContext C] (anchor : A)
    (spanFor : TextRange → Option (SpanData A C)) (token : Token)
    (peek : Option Token) (st : Stack A C)
    (htok : lexerToken token = true) :
    (convertStep anchor spanFor token peek st).isSome = true := by
  obtain ⟨top, stk⟩ := st
  rw [convertStep.eq_def]
  repeat' split
  all_goals try rfl
  all_goals exfalso
  all_goals simp_all [lexerToken, String.toList, List.head?_eq_none_iff]

/-- The main loop never fails on a token stream whose tokens satisfy the
lexer's guarantees. -/
theorem convertLoop_total {A C : Type} [SyntaxContext C] (anchor : A)
    (spanFor : TextRange → Option (SpanData A C)) :
    ∀ (toks : List Token) (st : Stack A C),
      (∀ t ∈ toks, lexerToken t = true) →
      ∃ st', convertLoop anchor spanFor toks st = some st' := by
  intro toks
  induction toks with
  | nil => intro st _; exact ⟨st, rfl⟩
  | cons token rest ih =>
    intro st h
    have hs := convertStep_total anchor spanFor token rest.head? st
      (h token (List.mem_cons_self _ _))
    obtain ⟨st1, hst1⟩ := Option.isSome_iff_exists.mp hs
    obtain ⟨st', hst'⟩ := ih st1 (fun t ht => h t (List.mem_cons_of_mem _ ht))
    exact ⟨st', by rw [convertLoop, hst1]; exact hst'⟩

/-! ## Claim theorems -/

/-- C1: For every input token stream — streams with unbalanced delimiters
included — forward conversion terminates with exactly one root subtree and
never fails (given the lexer's token well-formedness, under which the
converter's panics are unreachable): the loop succeeds, each surplus frame
left on the stack is merged into its parent as a `Punct` leaf holding its
opening-delimiter character followed by its unterminated children, and a
root holding exactly one child which is itself a subtree is returned
directly. -/
theorem convert_tokens_total_recovery {A C : Type} [Inhabited A] [SyntaxContext C]
    (anchor : A) (spanFor : TextRange → Option (SpanData A C)) (toks : List Token)
    (h : ∀ t ∈ toks, lexerToken t = true) :
    ∃ top rest,
      convertLoop anchor spanFor toks (entrySubtree, []) = some (top, rest) ∧
      convert_tokens anchor spanFor toks = some (collapseRoot (mergeStack top rest)) ∧
      (∀ front bottom, top :: rest = front ++ [bottom] →
        mergeStack top rest =
          ⟨bottom.delimiter, bottom.tokenTrees ++ surplusTokens front.reverse⟩) ∧
      (∀ d ts, (mergeStack top rest).tokenTrees = [TokenTree.subtree d ts] →
        collapseRoot (mergeStack top rest) = ⟨d, ts⟩) ∧
      ((∀ d ts, (mergeStack top rest).tokenTrees ≠ [TokenTree.subtree d ts]) →
        collapseRoot (mergeStack top rest) = mergeStack top rest) := by
  obtain ⟨⟨top, rest⟩, hloop⟩ :=
    convertLoop_total anchor spanFor toks (entrySubtree, []) h
  refine ⟨top, rest, hloop, ?_, ?_, ?_, ?_⟩
  · unfold convert_tokens
    rw [hloop]
  · intro front bottom hfb
    exact mergeStack_append rest top front bottom hfb
  · intro d ts hd
    exact collapseRoot_single _ d ts hd
  · intro hne
    exact collapseRoot_other _ hne

/-- The input of the C1 witness: the unbalanced stream `( a`. -/
def c1Toks : List Token :=
  [⟨.L_PAREN, "(", .at 0 1, .at 0 1, none⟩, ⟨.IDENT, "a", .at 1 1, .at 1 1, none⟩]

/-- Witness for C1 at the unbalanced stream `( a`. -/
theorem convert_tokens_total_recovery_witness :
    (∀ t ∈ c1Toks, lexerToken t = true) ∧
    (∃ top rest,
      (convertLoop () (fun _ => none) c1Toks (entrySubtree, []) :
        Option (Stack Unit Unit)) = some (top, rest) ∧
      (convert_tokens () (fun _ => none) c1Toks : Option (Subtree (SpanData Unit Unit))) =
        some (collapseRoot (mergeStack top rest)) ∧
      (∀ front bottom, top :: rest = front ++ [bottom] →
        mergeStack top rest =
          ⟨bottom.delimiter, bottom.tokenTrees ++ surplusTokens front.reverse⟩) ∧
      (∀ d ts, (mergeStack top rest).tokenTrees = [TokenTree.subtree d ts] →
        collapseRoot (mergeStack top rest) = ⟨d, ts⟩) ∧
      ((∀ d ts, (mergeStack top rest).tokenTrees ≠ [TokenTree.subtree d ts]) →
        collapseRoot (mergeStack top rest) = mergeStack top rest)) :=
  ⟨by decide, @convert_tokens_total_recovery Unit Unit _ _ () (fun _ => none) c1Toks (by decide)⟩

/-- C2: the text entry point returns no result exactly when the lexer
reported at least one lexical error; on lexically clean input it always
returns a subtree. -/
theorem parse_to_token_tree_none_iff {A C : Type} [Inhabited A] [SyntaxContext C]
    (anchor : A) (lexed : LexedStr) :
    (parse_to_token_tree anchor lexed : Option (Subtree (SpanData A C))) = none ↔
      lexed.errors ≠ [] := by
  unfold parse_to_token_tree
  split
  · next herr => simp [herr]
  · next herr =>
      simp only [ne_eq, not_not] at herr
      constructor
      · intro hc
        obtain ⟨⟨top, rest⟩, hloop⟩ :=
          @convertLoop_total A C _ anchor (fun _ => none) lexed.tokens
            (entrySubtree, []) lexed.wf
        unfold convert_tokens at hc
        rw [hloop] at hc
        exact Option.noConfusion hc
      · intro hc
        exact absurd herr hc

/-- C3 (amended): a lifetime token is always split into exactly two leaves
in order — a `Joint`-spaced quote `Punct` and an `Ident` holding the token
text without the leading quote.  Each leaf's span is the converter's
`span_for` result for the token's range whenever that lookup succeeds (both
leaves then carry the *same* looked-up span); only when the lookup fails
does each leaf fall back to a dummy span carrying its independently sliced
sub-range of the token's relative range — the quote the first character's
range, the identifier the remainder. -/
theorem lifetime_split_two_leaves {A C : Type} [SyntaxContext C] (anchor : A)
    (spanFor : TextRange → Option (SpanData A C)) (token : Token)
    (peek : Option Token) (top : Subtree (SpanData A C))
    (stk : List (Subtree (SpanData A C)))
    (hk : token.kind = .LIFETIME_IDENT)
    (c : Char) (cs : List Char) (hc : token.text.toList = c :: cs)
    (h1 : c.utf8Size = 1) :
    convertStep anchor spanFor token peek (top, stk) =
      some ({ top with tokenTrees := top.tokenTrees ++
        [.leaf (.punct ⟨'\'', .Joint,
          (spanFor token.absRange).getD
            ⟨TextRange.at token.relRange.start 1, anchor, SyntaxContext.DUMMY⟩⟩),
         .leaf (.ident ⟨String.mk cs,
          (spanFor token.absRange).getD
            ⟨TextRange.at (token.relRange.start + 1) (token.relRange.len - 1),
              anchor, SyntaxContext.DUMMY⟩⟩)] }, stk) ∧
    token.text.drop 1 = String.mk cs ∧
    (∀ s, spanFor token.absRange = some s →
      (spanFor token.absRange).getD
          ⟨TextRange.at token.relRange.start 1, anchor, SyntaxContext.DUMMY⟩ = s ∧
      (spanFor token.absRange).getD
          ⟨TextRange.at (token.relRange.start + 1) (token.relRange.len - 1),
            anchor, SyntaxContext.DUMMY⟩ = s) ∧
    (spanFor token.absRange = none →
      (spanFor token.absRange).getD
          ⟨TextRange.at token.relRange.start 1, anchor, SyntaxContext.DUMMY⟩ =
        ⟨TextRange.at token.relRange.start 1, anchor, SyntaxContext.DUMMY⟩ ∧
      (spanFor token.absRange).getD
          ⟨TextRange.at (token.relRange.start + 1) (token.relRange.len - 1),
            anchor, SyntaxContext.DUMMY⟩ =
        ⟨TextRange.at (token.relRange.start + 1) (token.relRange.len - 1),
          anchor, SyntaxContext.DUMMY⟩) := by
  refine ⟨?_, ?_, ?_, ?_⟩
  · rw [convertStep.eq_def]
    have hc2 : token.text.data = c :: cs := by simpa [String.toList] using hc
    simp [hk, hc2, h1, SyntaxKind.is_punct, SyntaxKind.is_keyword, SyntaxKind.is_literal]
  · rw [String.drop_eq]
    simp only [String.toList] at hc
    simp [hc]
  · intro s hs
    simp [hs]
  · intro hs
    simp [hs]

/-- The lifetime token of the C3 counterexample and witness: `'a`. -/
def c3Tok : Token :=
  ⟨.LIFETIME_IDENT, "'a", .at 0 2, .at 0 2, none⟩

/-- The span-map answer of the C3 counterexample. -/
def c3Span : SpanData Unit Unit :=
  ⟨⟨5, 7⟩, (), ()⟩

/-- C3 counterexample: when the converter's span lookup succeeds, both
emitted leaves carry the looked-up span — its range `[5,7)` — and not the
independently sliced sub-spans `[0,1)` and `[1,2)` of the token's range that
the claim requires. -/
theorem lifetime_split_span_counterexample :
    (convertStep () (fun _ => some c3Span) c3Tok none (entrySubtree, []) :
      Option (Stack Unit Unit)) =
      some (⟨entrySubtree.delimiter,
        [.leaf (.punct ⟨'\'', .Joint, c3Span⟩), .leaf (.ident ⟨"a", c3Span⟩)]⟩, []) ∧
    c3Span.range ≠ TextRange.at 0 1 ∧ c3Span.range ≠ TextRange.at 1 1 :=
  ⟨rfl, by decide, by decide⟩

/-- Witness for C3 (amended) at the token `'a` with no span-map answer. -/
theorem lifetime_split_two_leaves_witness :
    (c3Tok.kind = .LIFETIME_IDENT ∧ c3Tok.text.toList = '\'' :: ['a'] ∧
      Char.utf8Size '\'' = 1) ∧
    ((convertStep () (fun _ => none) c3Tok none (entrySubtree, []) :
        Option (Stack Unit Unit)) =
      some ({ entrySubtree with tokenTrees := entrySubtree.tokenTrees ++
        [.leaf (.punct ⟨'\'', .Joint,
          ((fun (_ : TextRange) => (none : Option (SpanData Unit Unit))) c3Tok.absRange).getD
            ⟨TextRange.at c3Tok.relRange.start 1, (), SyntaxContext.DUMMY⟩⟩),
         .leaf (.ident ⟨String.mk ['a'],
          ((fun (_ : TextRange) => (none : Option (SpanData Unit Unit))) c3Tok.absRange).getD
            ⟨TextRange.at (c3Tok.relRange.start + 1) (c3Tok.relRange.len - 1),
              (), SyntaxContext.DUMMY⟩⟩)] }, []) ∧
      c3Tok.text.drop 1 = String.mk ['a'] ∧
      (∀ s, (fun (_ : TextRange) => (none : Option (SpanData Unit Unit))) c3Tok.absRange = some s →
        ((fun (_ : TextRange) => (none : Option (SpanData Unit Unit))) c3Tok.absRange).getD
            ⟨TextRange.at c3Tok.relRange.start 1, (), SyntaxContext.DUMMY⟩ = s ∧
        ((fun (_ : TextRange) => (none : Option (SpanData Unit Unit))) c3Tok.absRange).getD
            ⟨TextRange.at (c3Tok.relRange.start + 1) (c3Tok.relRange.len - 1),
              (), SyntaxContext.DUMMY⟩ = s) ∧
      ((fun (_ : TextRange) => (none : Option (SpanData Unit Unit))) c3Tok.absRange = none →
        ((fun (_ : TextRange) => (none : Option (SpanData Unit Unit))) c3Tok.absRange).getD
            ⟨TextRange.at c3Tok.relRange.start 1, (), SyntaxContext.DUMMY⟩ =
          ⟨TextRange.at c3Tok.relRange.start 1, (), SyntaxContext.DUMMY⟩ ∧
        ((fun (_ : TextRange) => (none : Option (SpanData Unit Unit))) c3Tok.absRange).getD
            ⟨TextRange.at (c3Tok.relRange.start + 1) (c3Tok.relRange.len - 1),
              (), SyntaxContext.DUMMY⟩ =
          ⟨TextRange.at (c3Tok.relRange.start + 1) (c3Tok.relRange.len - 1),
            (), SyntaxContext.DUMMY⟩)) :=
  ⟨⟨rfl, by decide, by decide⟩,
    lifetime_split_two_leaves () (fun _ => none) c3Tok none entrySubtree [] rfl
      '\'' ['a'] (by decide) (by decide)⟩

/-- C5: when forward conversion emits a `Punct` leaf for ordinary
(non-delimiter, non-closer) punctuation, its spacing is `Joint` exactly when
there is a lookahead token whose kind belongs to the fixed single-character
operator set `= < > ! & | ~ @ . , ; : # $ ? + - * / % ^` together with the
lifetime quote; with no lookahead token, or any other lookahead kind, the
spacing is `Alone`. -/
theorem punct_spacing_iff {A C : Type} [SyntaxContext C] (anchor : A)
    (spanFor : TextRange → Option (SpanData A C)) (token : Token)
    (peek : Option Token) (top : Subtree (SpanData A C))
    (stk : List (Subtree (SpanData A C)))
    (hp : token.kind.is_punct = true) (hu : token.kind ≠ .UNDERSCORE)
    (hnc : expectedCloser top.delimiter.kind ≠ some token.kind)
    (hno : openerDelim token.kind = none)
    (c : Char) (hch : token.text.toList.head? = some c) :
    ∃ sp,
      convertStep anchor spanFor token peek (top, stk) =
        some ({ top with tokenTrees := top.tokenTrees ++
          [.leaf (.punct ⟨c, sp,
            (spanFor token.absRange).getD
              ⟨token.relRange, anchor, SyntaxContext.DUMMY⟩⟩)] }, stk) ∧
      (sp = .Joint ↔ ∃ next, peek = some next ∧ is_single_token_op next.kind = true) ∧
      (∀ k, is_single_token_op k = true ↔
        k ∈ [SyntaxKind.EQ, .L_ANGLE, .R_ANGLE, .BANG, .AMP, .PIPE, .TILDE, .AT,
          .DOT, .COMMA, .SEMICOLON, .COLON, .POUND, .DOLLAR, .QUESTION, .PLUS,
          .MINUS, .STAR, .SLASH, .PERCENT, .CARET, .LIFETIME_IDENT]) := by
  have hcm : token.kind ≠ .COMMENT := by
    intro hx
    rw [hx] at hp
    simp [SyntaxKind.is_punct] at hp
  refine ⟨(match peek with
    | some next => if is_single_token_op next.kind then Spacing.Joint else .Alone
    | none => Spacing.Alone), ?_, ?_, ?_⟩
  · rw [convertStep.eq_def]
    have hch2 : token.text.data.head? = some c := by simpa [String.toList] using hch
    simp [hcm, hp, hu, hnc, hno, hch2]
  · cases peek with
    | none => simp
    | some next =>
      by_cases hop : is_single_token_op next.kind = true
      · simp [hop]
      · simp [hop]
  · intro k
    cases k <;> simp [is_single_token_op]

/-- The token of the C5 witness: `+` with lookahead `-`. -/
def c5Tok : Token :=
  ⟨.PLUS, "+", .at 1 1, .at 1 1, none⟩

/-- The lookahead token of the C5 witness. -/
def c5Peek : Token :=
  ⟨.MINUS, "-", .at 2 1, .at 2 1, none⟩

/-- Witness for C5 at the token `+` with lookahead `-` (an operator kind, so
the emitted spacing is `Joint`). -/
theorem punct_spacing_iff_witness :
    (SyntaxKind.is_punct c5Tok.kind = true ∧ c5Tok.kind ≠ .UNDERSCORE ∧
      expectedCloser (entrySubtree : Subtree (SpanData Unit Unit)).delimiter.kind ≠
        some c5Tok.kind ∧
      openerDelim c5Tok.kind = none ∧ c5Tok.text.toList.head? = some '+') ∧
    (∃ sp,
      (convertStep () (fun _ => none) c5Tok (some c5Peek) (entrySubtree, []) :
        Option (Stack Unit Unit)) =
        some ({ entrySubtree with tokenTrees := entrySubtree.tokenTrees ++
          [.leaf (.punct ⟨'+', sp,
            ((fun (_ : TextRange) => (none : Option (SpanData Unit Unit)))
                c5Tok.absRange).getD
              ⟨c5Tok.relRange, (), SyntaxContext.DUMMY⟩⟩)] }, []) ∧
      (sp = .Joint ↔
        ∃ next, some c5Peek = some next ∧ is_single_token_op next.kind = true) ∧
      (∀ k, is_single_token_op k = true ↔
        k ∈ [SyntaxKind.EQ, .L_ANGLE, .R_ANGLE, .BANG, .AMP, .PIPE, .TILDE, .AT,
          .DOT, .COMMA, .SEMICOLON, .COLON, .POUND, .DOLLAR, .QUESTION, .PLUS,
          .MINUS, .STAR, .SLASH, .PERCENT, .CARET, .LIFETIME_IDENT])) :=
  ⟨⟨rfl, by decide, by decide, rfl, rfl⟩,
    punct_spacing_iff () (fun _ => none) c5Tok (some c5Peek) entrySubtree []
      rfl (by decide) (by decide) rfl '+' rfl⟩

/-- C8: a doc comment token splices into the current frame exactly the token
sequence of `#[doc = "<escaped text>"]` — a `#` punct, a `!` punct exactly
for inner doc comments, and a bracket-delimited subtree holding `Ident
"doc"`, `Punct '='` and a literal with the quoted, escaped comment text —
and the comment token itself contributes no other leaf. -/
theorem doc_comment_desugar {A C : Type} [SyntaxContext C] (anchor : A)
    (spanFor : TextRange → Option (SpanData A C)) (token : Token)
    (peek : Option Token) (top : Subtree (SpanData A C))
    (stk : List (Subtree (SpanData A C)))
    (info : CommentInfo) (pl : CommentPlacement)
    (hk : token.kind = .COMMENT) (hcmt : token.comment = some info)
    (hdoc : info.doc = some pl) :
    convert_doc_comment token
        ((spanFor token.absRange).getD ⟨token.relRange, anchor, SyntaxContext.DUMMY⟩) =
      some
        ([TokenTree.leaf (.punct ⟨'#', .Alone,
            (spanFor token.absRange).getD ⟨token.relRange, anchor, SyntaxContext.DUMMY⟩⟩)]
          ++ (match pl with
              | .Inner => [TokenTree.leaf (.punct ⟨'!', .Alone,
                  (spanFor token.absRange).getD
                    ⟨token.relRange, anchor, SyntaxContext.DUMMY⟩⟩)]
              | .Outer => [])
          ++ [TokenTree.subtree
                ⟨(spanFor token.absRange).getD ⟨token.relRange, anchor, SyntaxContext.DUMMY⟩,
                  (spanFor token.absRange).getD ⟨token.relRange, anchor, SyntaxContext.DUMMY⟩,
                  .Bracket⟩
                [.leaf (.ident ⟨"doc",
                    (spanFor token.absRange).getD
                      ⟨token.relRange, anchor, SyntaxContext.DUMMY⟩⟩),
                 .leaf (.punct ⟨'=', .Alone,
                    (spanFor token.absRange).getD
                      ⟨token.relRange, anchor, SyntaxContext.DUMMY⟩⟩),
                 .leaf (.literal ⟨doc_comment_text info token.text,
                    (spanFor token.absRange).getD
                      ⟨token.relRange, anchor, SyntaxContext.DUMMY⟩⟩)]]) ∧
    (∀ tokens, convert_doc_comment token
        ((spanFor token.absRange).getD ⟨token.relRange, anchor, SyntaxContext.DUMMY⟩) =
          some tokens →
      convertStep anchor spanFor token peek (top, stk) =
        some ({ top with tokenTrees := top.tokenTrees ++ tokens }, stk)) ∧
    doc_comment_text info token.text =
      "\"" ++ escapeDebug
        (match info.shape with
          | .Block => (token.text.drop info.markerLen).dropRight 2
          | .Line => token.text.drop info.markerLen) ++ "\"" := by
  refine ⟨?_, ?_, ?_⟩
  · simp only [convert_doc_comment, hcmt, hdoc, Option.bind_eq_bind, Option.some_bind]
    cases pl <;> rfl
  · intro tokens htk
    rw [convertStep.eq_def]
    simp [hk, htk]
  · unfold doc_comment_text
    cases hs : info.shape <;> rfl

/-- The doc comment token of the C8 witness: `/// hi`, an outer doc
comment. -/
def c8Tok : Token :=
  ⟨.COMMENT, "/// hi", .at 0 6, .at 0 6, some ⟨3, .Line, some .Outer⟩⟩

/-- Witness for C8 at the outer doc comment `/// hi`: the spliced sequence is
the token sequence of `#[doc = " hi"]`. -/
theorem doc_comment_desugar_witness :
    (c8Tok.kind = .COMMENT ∧ c8Tok.comment = some ⟨3, .Line, some .Outer⟩ ∧
      (⟨3, .Line, some .Outer⟩ : CommentInfo).doc = some .Outer) ∧
    ((convert_doc_comment c8Tok
        (((fun (_ : TextRange) => (none : Option (SpanData Unit Unit)))
            c8Tok.absRange).getD ⟨c8Tok.relRange, (), SyntaxContext.DUMMY⟩) =
      some
        ([TokenTree.leaf (.punct ⟨'#', .Alone,
            ((fun (_ : TextRange) => (none : Option (SpanData Unit Unit)))
                c8Tok.absRange).getD ⟨c8Tok.relRange, (), SyntaxContext.DUMMY⟩⟩)]
          ++ (match CommentPlacement.Outer with
              | .Inner => [TokenTree.leaf (.punct ⟨'!', .Alone,
                  ((fun (_ : TextRange) => (none : Option (SpanData Unit Unit)))
                      c8Tok.absRange).getD ⟨c8Tok.relRange, (), SyntaxContext.DUMMY⟩⟩)]
              | .Outer => [])
          ++ [TokenTree.subtree
                ⟨((fun (_ : TextRange) => (none : Option (SpanData Unit Unit)))
                    c8Tok.absRange).getD ⟨c8Tok.relRange, (), SyntaxContext.DUMMY⟩,
                  ((fun (_ : TextRange) => (none : Option (SpanData Unit Unit)))
                    c8Tok.absRange).getD ⟨c8Tok.relRange, (), SyntaxContext.DUMMY⟩,
                  .Bracket⟩
                [.leaf (.ident ⟨"doc",
                    ((fun (_ : TextRange) => (none : Option (SpanData Unit Unit)))
                        c8Tok.absRange).getD ⟨c8Tok.relRange, (), SyntaxContext.DUMMY⟩⟩),
                 .leaf (.punct ⟨'=', .Alone,
                    ((fun (_ : TextRange) => (none : Option (SpanData Unit Unit)))
                        c8Tok.absRange).getD ⟨c8Tok.relRange, (), SyntaxContext.DUMMY⟩⟩),
                 .leaf (.literal ⟨doc_comment_text ⟨3, .Line, some .Outer⟩ c8Tok.text,
                    ((fun (_ : TextRange) => (none : Option (SpanData Unit Unit)))
                        c8Tok.absRange).getD ⟨c8Tok.relRange, (), SyntaxContext.DUMMY⟩⟩)]]) ∧
      (∀ tokens, convert_doc_comment c8Tok
          (((fun (_ : TextRange) => (none : Option (SpanData Unit Unit)))
              c8Tok.absRange).getD ⟨c8Tok.relRange, (), SyntaxContext.DUMMY⟩) =
            some tokens →
        (convertStep () (fun _ => none) c8Tok none (entrySubtree, []) :
            Option (Stack Unit Unit)) =
          some ({ entrySubtree with
            tokenTrees := entrySubtree.tokenTrees ++ tokens }, [])) ∧
      doc_comment_text ⟨3, .Line, some .Outer⟩ c8Tok.text =
        "\"" ++ escapeDebug
          (match (⟨3, .Line, some .Outer⟩ : CommentInfo).shape with
            | .Block => (c8Tok.text.drop (3 : Nat)).dropRight 2
            | .Line => c8Tok.text.drop (3 : Nat)) ++ "\"")) :=
  ⟨⟨rfl, rfl, rfl⟩,
    doc_comment_desugar () (fun _ => none) c8Tok none entrySubtree []
      ⟨3, .Line, some .Outer⟩ .Outer rfl rfl rfl⟩

/-- The escaped text of the C8 witness comment is `" hi"` (marker stripped,
quoted). -/
theorem doc_comment_text_witness_value :
    doc_comment_text ⟨3, .Line, some .Outer⟩ "/// hi" = "\" hi\"" := rfl

/-- C4: a `Consume` event of lifetime kind consumes exactly two cursor
leaves — the quote and the name — for every token count the parser reported,
and the emitted token's text is the quote character followed by the
identifier text. -/
theorem lifetime_consume_two {S : Type} (sink : TtTreeSink S) (n : Nat)
    (q : Punct S) (name : Ident S) (rest : List (CursorAtom S))
    (hcur : sink.cursor = .leaf (.punct q) :: .leaf (.ident name) :: rest)
    (hq : q.char = '\'') (hbuf : sink.buf = "") :
    sink.token .LIFETIME_IDENT n =
      some ⟨"", rest, sink.text_pos + 1 + name.text.utf8ByteSize,
        sink.inner ++ [.token .LIFETIME_IDENT ("'" ++ name.text)],
        sink.token_map ++ [(TextRange.at sink.text_pos 1, q.span),
          (TextRange.at (sink.text_pos + 1) name.text.utf8ByteSize, name.span)]⟩ := by
  obtain ⟨qc, qspc, qspan⟩ := q
  simp only at hq
  subst hq
  simp [TtTreeSink.token, consumeN, sinkNextText, wsBetween, hcur, hbuf,
    String.singleton]
  have h1 : ("".push '\'') = "'" := rfl
  have h2 : ("'" : String).utf8ByteSize = 1 := rfl
  simp [h1, h2]

/-- The sink of the C4 witness: a cursor holding the two leaves of a split
lifetime `'a`. -/
def c4Sink : TtTreeSink Unit :=
  TtTreeSink.new [.leaf (.punct ⟨'\'', .Joint, ()⟩), .leaf (.ident ⟨"a", ()⟩)]

/-- Witness for C4 at the split lifetime `'a` with reported count 1: two
leaves are consumed all the same. -/
theorem lifetime_consume_two_witness :
    (c4Sink.cursor =
        .leaf (.punct ⟨'\'', .Joint, ()⟩) :: .leaf (.ident ⟨"a", ()⟩) :: [] ∧
      (⟨'\'', .Joint, ()⟩ : Punct Unit).char = '\'' ∧ c4Sink.buf = "") ∧
    c4Sink.token .LIFETIME_IDENT 1 =
      some ⟨"", [],
        c4Sink.text_pos + 1 + ("a" : String).utf8ByteSize,
        c4Sink.inner ++ [.token .LIFETIME_IDENT ("'" ++ "a")],
        c4Sink.token_map ++ [(TextRange.at c4Sink.text_pos 1, ()),
          (TextRange.at (c4Sink.text_pos + 1) ("a" : String).utf8ByteSize, ())]⟩ :=
  ⟨⟨rfl, rfl, rfl⟩,
    lifetime_consume_two c4Sink 1 ⟨'\'', .Joint, ()⟩ ⟨"a", ()⟩ [] rfl rfl rfl⟩

/-- The condition of the whitespace heuristic, characterized: the cursor
position holds an `Alone`-spaced punct leaf other than `;`, and the next
atom is a punct leaf other than the lifetime quote — the *next* leaf's
spacing plays no role. -/
theorem wsBetween_iff {S : Type} (atoms : List (CursorAtom S)) :
    wsBetween atoms = true ↔
      ∃ p pnext rest2,
        atoms = .leaf (.punct p) :: .leaf (.punct pnext) :: rest2 ∧
        p.spacing = .Alone ∧ p.char ≠ ';' ∧ pnext.char ≠ '\'' := by
  match atoms with
  | [] => simp [wsBetween]
  | [a] => cases a with
    | leaf la => cases la <;> simp [wsBetween]
    | enter d => simp [wsBetween]
    | leave d => simp [wsBetween]
  | a :: b :: rest2 =>
    cases a with
    | leaf la =>
      cases la with
      | punct p =>
        cases b with
        | leaf lb =>
          cases lb with
          | punct pnext =>
            constructor
            · intro h
              simp only [wsBetween, List.head?_cons, List.drop_succ_cons,
                List.drop_zero, Bool.and_eq_true, beq_iff_eq, bne_iff_ne] at h
              exact ⟨p, pnext, rest2, rfl, h.1.1, h.1.2, h.2⟩
            · rintro ⟨p2, pn2, r2, heq, h1, h2, h3⟩
              obtain ⟨rfl, rfl, rfl⟩ : p = p2 ∧ pnext = pn2 ∧ rest2 = r2 := by
                simpa using heq
              simp [wsBetween, h1, h2, h3]
          | ident i => simp [wsBetween]
          | literal l => simp [wsBetween]
        | enter d => simp [wsBetween]
        | leave d => simp [wsBetween]
      | ident i => simp [wsBetween]
      | literal l => simp [wsBetween]
    | enter d => simp [wsBetween]
    | leave d => simp [wsBetween]

/-- C6 (amended): after a `Consume` event's token is emitted, exactly one
whitespace token is synthesized when the leaf just consumed is an
`Alone`-spaced punctuation leaf other than `;` and the *next* atom is a
punctuation leaf other than the lifetime quote — the next leaf's spacing is
not examined; in every other case no whitespace is inserted. -/
theorem ws_insertion_iff {S : Type} (sink : TtTreeSink S) (kind : SyntaxKind)
    (la : Leaf S) (rest : List (CursorAtom S))
    (hcur : sink.cursor = .leaf la :: rest)
    (hk : kind ≠ .LIFETIME_IDENT)
    (hok : ∀ p, la = .punct p → p.char.val ≤ 127) :
    sink.token kind 1 =
      some ⟨"", rest,
        sink.text_pos + (leafText la).utf8ByteSize +
          (if wsBetween (.leaf la :: rest) then 1 else 0),
        sink.inner ++ [.token kind (sink.buf ++ leafText la)] ++
          (if wsBetween (.leaf la :: rest) then [.token .WHITESPACE " "] else []),
        sink.token_map ++
          [(TextRange.at sink.text_pos (leafText la).utf8ByteSize, leafSpan la)]⟩ ∧
    (wsBetween (.leaf la :: rest) = true ↔
      ∃ p pnext rest2,
        (.leaf la :: rest : List (CursorAtom S)) =
          .leaf (.punct p) :: .leaf (.punct pnext) :: rest2 ∧
        p.spacing = .Alone ∧ p.char ≠ ';' ∧ pnext.char ≠ '\'') := by
  refine ⟨?_, wsBetween_iff _⟩
  by_cases hws : wsBetween (CursorAtom.leaf la :: rest) = true
  · cases la with
    | ident i =>
        simp [TtTreeSink.token, consumeN, sinkNextText, leafText, leafSpan,
          hcur, hk, hws]
    | literal l =>
        simp [TtTreeSink.token, consumeN, sinkNextText, leafText, leafSpan,
          hcur, hk, hws]
    | punct p =>
        have hpa := hok p rfl
        simp [TtTreeSink.token, consumeN, sinkNextText, leafText, leafSpan,
          hcur, hk, hws, hpa]
  · rw [Bool.not_eq_true] at hws
    cases la with
    | ident i =>
        simp [TtTreeSink.token, consumeN, sinkNextText, leafText, leafSpan,
          hcur, hk, hws]
    | literal l =>
        simp [TtTreeSink.token, consumeN, sinkNextText, leafText, leafSpan,
          hcur, hk, hws]
    | punct p =>
        have hpa := hok p rfl
        simp [TtTreeSink.token, consumeN, sinkNextText, leafText, leafSpan,
          hcur, hk, hws, hpa]

/-- The sink of the C6 counterexample and witness: an `Alone`-spaced `+`
followed by a `Joint`-spaced `+`. -/
def c6Sink : TtTreeSink Unit :=
  TtTreeSink.new [.leaf (.punct ⟨'+', .Alone, ()⟩), .leaf (.punct ⟨'+', .Joint, ()⟩)]

/-- C6 counterexample: consuming the `Alone`-spaced `+` inserts a whitespace
token even though the next punctuation leaf is `Joint`-spaced — the claim's
requirement that *both* leaves be `Alone`-spaced does not hold of the code,
which never examines the next leaf's spacing. -/
theorem ws_insertion_counterexample :
    c6Sink.token .PLUS 1 =
      some ⟨"", [.leaf (.punct ⟨'+', .Joint, ()⟩)], 2,
        [.token .PLUS "+", .token .WHITESPACE " "], [(⟨0, 1⟩, ())]⟩ ∧
    (⟨'+', .Joint, ()⟩ : Punct Unit).spacing ≠ .Alone :=
  ⟨rfl, by decide⟩

/-- Witness for C6 (amended) at the `+ +` sink: the whitespace condition
holds (the next leaf being `Joint`-spaced notwithstanding). -/
theorem ws_insertion_iff_witness :
    (c6Sink.cursor =
        .leaf (.punct ⟨'+', .Alone, ()⟩) :: [.leaf (.punct ⟨'+', .Joint, ()⟩)] ∧
      SyntaxKind.PLUS ≠ SyntaxKind.LIFETIME_IDENT ∧
      (∀ p, (Leaf.punct ⟨'+', .Alone, ()⟩ : Leaf Unit) = .punct p →
        p.char.val ≤ 127)) ∧
    (c6Sink.token .PLUS 1 =
      some ⟨"", [.leaf (.punct ⟨'+', .Joint, ()⟩)],
        c6Sink.text_pos + (leafText (Leaf.punct ⟨'+', .Alone, ()⟩)).utf8ByteSize +
          (if wsBetween
              (.leaf (.punct ⟨'+', .Alone, ()⟩) ::
                [.leaf (.punct (⟨'+', .Joint, ()⟩ : Punct Unit))])
            then 1 else 0),
        c6Sink.inner ++
          [.token .PLUS (c6Sink.buf ++ leafText (Leaf.punct ⟨'+', .Alone, ()⟩))] ++
          (if wsBetween
              (.leaf (.punct ⟨'+', .Alone, ()⟩) ::
                [.leaf (.punct (⟨'+', .Joint, ()⟩ : Punct Unit))])
            then [.token .WHITESPACE " "] else []),
        c6Sink.token_map ++
          [(TextRange.at c6Sink.text_pos
              (leafText (Leaf.punct ⟨'+', .Alone, ()⟩)).utf8ByteSize,
            leafSpan (Leaf.punct ⟨'+', .Alone, ()⟩))]⟩ ∧
    (wsBetween
        (.leaf (.punct ⟨'+', .Alone, ()⟩) ::
          [.leaf (.punct (⟨'+', .Joint, ()⟩ : Punct Unit))]) = true ↔
      ∃ p pnext rest2,
        (.leaf (.punct ⟨'+', .Alone, ()⟩) ::
            [.leaf (.punct (⟨'+', .Joint, ()⟩ : Punct Unit))] :
          List (CursorAtom Unit)) =
          .leaf (.punct p) :: .leaf (.punct pnext) :: rest2 ∧
        p.spacing = .Alone ∧ p.char ≠ ';' ∧ pnext.char ≠ '\'')) :=
  ⟨⟨rfl, by decide, fun p hp => by cases hp; decide⟩,
    ws_insertion_iff c6Sink .PLUS (.punct ⟨'+', .Alone, ()⟩)
      [.leaf (.punct ⟨'+', .Joint, ()⟩)] rfl (by decide)
      (fun p hp => by cases hp; decide)⟩

/-- C7 (amended): a `FloatSplit` event over a literal leaf whose text
contains a dot splits the text on its first dot; when `has_pseudo_dot` is
false and the right part is non-empty it emits the left `NAME_REF`, the bare
`.` and a second `NAME_REF` wrapping the right part; when `has_pseudo_dot`
is true and the right part is empty it emits only the left `NAME_REF` and
the `.`; and when `has_pseudo_dot` disagrees with the emptiness of the right
part the converter fails its assertion (modelled `none`) instead of emitting
anything. -/
theorem float_split_spec {S : Type} (sink : TtTreeSink S) (lit : Literal S)
    (rest : List (CursorAtom S)) (left right : String)
    (hcur : sink.cursor = .leaf (.literal lit) :: rest)
    (hsplit : split_once_dot lit.text = some (left, right)) (hl : left ≠ "") :
    (right ≠ "" → sink.float_split false =
        some { sink with cursor := rest, inner := sink.inner ++
          [.startNode .NAME_REF, .token .INT_NUMBER left, .finishNode, .finishNode,
           .token .DOT ".", .startNode .NAME_REF, .token .INT_NUMBER right,
           .finishNode, .finishNode] }) ∧
    (right = "" → sink.float_split true =
        some { sink with cursor := rest, inner := sink.inner ++
          [.startNode .NAME_REF, .token .INT_NUMBER left, .finishNode, .finishNode,
           .token .DOT "."] }) ∧
    (right ≠ "" → sink.float_split true = none) ∧
    (right = "" → sink.float_split false = none) := by
  refine ⟨?_, ?_, ?_, ?_⟩ <;> intro hr <;>
    simp [TtTreeSink.float_split, hcur, hsplit, hl, hr]

/-- The sink of the C7 counterexample and witness: a cursor at the literal
leaf `1.2`. -/
def c7Sink : TtTreeSink Unit :=
  TtTreeSink.new [.leaf (.literal ⟨"1.2", ()⟩)]

/-- C7 counterexample: for the literal `1.2` under `has_pseudo_dot = true`,
the right part is `"2"` — not empty, as the claim asserts of every such
event — and the converter fails its assertion (modelled `none`) rather than
emitting the left `NAME_REF` and the dot. -/
theorem float_split_counterexample :
    split_once_dot "1.2" = some ("1", "2") ∧ ("2" : String) ≠ "" ∧
    c7Sink.float_split true = none :=
  ⟨rfl, by decide, rfl⟩

/-- Witness for C7 (amended) at the literal `1.2`. -/
theorem float_split_spec_witness :
    (c7Sink.cursor = .leaf (.literal ⟨"1.2", ()⟩) :: [] ∧
      split_once_dot ("1.2" : String) = some ("1", "2") ∧ ("1" : String) ≠ "") ∧
    ((("2" : String) ≠ "" → c7Sink.float_split false =
        some { c7Sink with cursor := [], inner := c7Sink.inner ++
          [.startNode .NAME_REF, .token .INT_NUMBER "1", .finishNode, .finishNode,
           .token .DOT ".", .startNode .NAME_REF, .token .INT_NUMBER "2",
           .finishNode, .finishNode] }) ∧
      (("2" : String) = "" → c7Sink.float_split true =
        some { c7Sink with cursor := [], inner := c7Sink.inner ++
          [.startNode .NAME_REF, .token .INT_NUMBER "1", .finishNode, .finishNode,
           .token .DOT "."] }) ∧
      (("2" : String) ≠ "" → c7Sink.float_split true = none) ∧
      (("2" : String) = "" → c7Sink.float_split false = none)) :=
  ⟨⟨rfl, rfl, by decide⟩,
    float_split_spec c7Sink ⟨"1.2", ()⟩ [] "1" "2" rfl rfl (by decide)⟩

theorem expect_char_some {S : Type} (sep : Char) (ts rest2 : List (TokenTree S))
    (h : expect_char sep ts = some rest2) :
    ∃ pc, ts = TokenTree.leaf (.punct pc) :: rest2 ∧ pc.char = sep := by
  cases ts with
  | nil => simp [expect_char] at h
  | cons hd tl =>
    cases hd with
    | subtree d ts2 => simp [expect_char] at h
    | leaf l =>
      cases l with
      | punct pc =>
        simp only [expect_char] at h
        by_cases hc : pc.char = sep
        · rw [if_pos hc, Option.some.injEq] at h
          exact ⟨pc, by rw [h], hc⟩
        · rw [if_neg hc] at h
          exact absurd h (by simp)
      | ident i => simp [expect_char] at h
      | literal l2 => simp [expect_char] at h

/-- The unconsumed remainder left by the splitter loop is always a suffix of
the input: nothing is reordered or dropped. -/
theorem parseExprsLoop_suffix {S : Type} [Span S] (p : ExprEntryPoint S)
    (sep : Char) : ∀ ts : List (TokenTree S),
    (parseExprsLoop p sep ts).2.IsSuffix ts := by
  have H : ∀ (n : Nat) (ts : List (TokenTree S)), ts.length ≤ n →
      (parseExprsLoop p sep ts).2.IsSuffix ts := by
    intro n
    induction n with
    | zero =>
      intro ts hlen
      rw [Nat.le_zero, List.length_eq_zero] at hlen
      subst hlen
      simp [parseExprsLoop]
    | succ n ih =>
      intro ts hlen
      cases ts with
      | nil => simp [parseExprsLoop]
      | cons t0 ts0 =>
        rw [parseExprsLoop]
        split
        · exact List.suffix_refl _
        · next t rest hp =>
          split
          · next hec =>
            have := p.parse_suffix _ _ _ hp
            simpa using this
          · next rest2 hec =>
            have h1 := p.parse_consumes _ _ _ hp
            obtain ⟨pc, hrest, -⟩ := expect_char_some sep rest rest2 hec
            have h2 : rest2.length < rest.length := by
              rw [hrest]; simp
            have h3 : rest2.length ≤ n := by
              simp only [List.length_cons] at h1 hlen
              omega
            have h4 := ih rest2 h3
            have h5 : rest2.IsSuffix rest := by
              rw [hrest]; exact ⟨[TokenTree.leaf (.punct pc)], rfl⟩
            have h6 := p.parse_suffix _ _ _ hp
            simp only
            exact h4.trans (h5.trans h6)
  exact fun ts => H ts.length ts (Nat.le_refl _)

/-- C9: for every non-empty subtree, the splitter repeatedly parses one
expression fragment; after each fragment it consumes exactly one separator
on a fork of the cursor, committing the fork only when a separator `Punct`
is present and stopping otherwise; and the unconsumed remainder — always a
suffix of the children, never dropped — is wrapped, when non-empty, into one
final unspecified-delimiter subtree appended to the result. -/
theorem parse_exprs_with_sep_spec {S : Type} [Span S] (tt : Subtree S)
    (sep : Char) (p : ExprEntryPoint S) (hne : tt.tokenTrees ≠ []) :
    parse_exprs_with_sep tt sep p =
      (parseExprsLoop p sep tt.tokenTrees).1 ++
        (if (parseExprsLoop p sep tt.tokenTrees).2.isEmpty then []
         else [⟨Delimiter.unspecified, (parseExprsLoop p sep tt.tokenTrees).2⟩]) ∧
    (parseExprsLoop p sep tt.tokenTrees).2.IsSuffix tt.tokenTrees ∧
    (∀ (t0 : TokenTree S) (ts0 : List (TokenTree S)),
      p.parse (t0 :: ts0) = none →
      parseExprsLoop p sep (t0 :: ts0) = ([], t0 :: ts0)) ∧
    (∀ (t0 : TokenTree S) (ts0 : List (TokenTree S)) (t : TokenTree S)
        (rest : List (TokenTree S)),
      p.parse (t0 :: ts0) = some (t, rest) → expect_char sep rest = none →
      parseExprsLoop p sep (t0 :: ts0) = ([subtree_or_wrap t], rest)) ∧
    (∀ (t0 : TokenTree S) (ts0 : List (TokenTree S)) (t : TokenTree S)
        (rest rest2 : List (TokenTree S)),
      p.parse (t0 :: ts0) = some (t, rest) → expect_char sep rest = some rest2 →
      parseExprsLoop p sep (t0 :: ts0) =
        (subtree_or_wrap t :: (parseExprsLoop p sep rest2).1,
          (parseExprsLoop p sep rest2).2)) ∧
    (∀ (ts rest2 : List (TokenTree S)), expect_char sep ts = some rest2 →
      ∃ pc, ts = TokenTree.leaf (.punct pc) :: rest2 ∧ pc.char = sep) := by
  refine ⟨?_, parseExprsLoop_suffix p sep tt.tokenTrees, ?_, ?_, ?_,
    fun ts rest2 h => expect_char_some sep ts rest2 h⟩
  · unfold parse_exprs_with_sep
    rw [if_neg (by simpa using hne)]
  · intro t0 ts0 hp
    rw [parseExprsLoop]
    split
    · rfl
    · next t rest hps => rw [hp] at hps; exact absurd hps (by simp)
  · intro t0 ts0 t rest hp hec
    rw [parseExprsLoop]
    split
    · next hps => rw [hp] at hps; exact absurd hps (by simp)
    · next t2 rest3 hps =>
      rw [hp, Option.some.injEq] at hps
      obtain ⟨rfl, rfl⟩ : t2 = t ∧ rest3 = rest := by
        have h1 := congrArg Prod.fst hps
        have h2 := congrArg Prod.snd hps
        simp at h1 h2
        exact ⟨h1.symm, h2.symm⟩
      split
      · rfl
      · next rest2 hecs => rw [hec] at hecs; exact absurd hecs (by simp)
  · intro t0 ts0 t rest rest2 hp hec
    rw [parseExprsLoop]
    split
    · next hps => rw [hp] at hps; exact absurd hps (by simp)
    · next t2 rest3 hps =>
      rw [hp, Option.some.injEq] at hps
      obtain ⟨rfl, rfl⟩ : t2 = t ∧ rest3 = rest := by
        have h1 := congrArg Prod.fst hps
        have h2 := congrArg Prod.snd hps
        simp at h1 h2
        exact ⟨h1.symm, h2.symm⟩
      split
      · next hecs => rw [hec] at hecs; exact absurd hecs (by simp)
      · next rest4 hecs =>
        rw [hec, Option.some.injEq] at hecs
        rw [hecs]

/-- C10: splitting a subtree with no children yields the empty fragment
sequence — no parse is attempted and no catch-all subtree is synthesized. -/
theorem parse_exprs_with_sep_empty {S : Type} [Span S] (d : Delimiter S)
    (sep : Char) (p : ExprEntryPoint S) :
    parse_exprs_with_sep ⟨d, []⟩ sep p = [] := by
  simp [parse_exprs_with_sep]

/-- A concrete expression parser for the C9 witness: each fragment is the
single next token tree. -/
def headFragment : ExprEntryPoint Unit where
  parse := fun ts =>
    match ts with
    | [] => none
    | t :: rest => some (t, rest)
  parse_consumes := by
    intro ts t rest h
    cases ts with
    | nil => simp at h
    | cons a as =>
      simp at h
      simp [h.2]
  parse_suffix := by
    intro ts t rest h
    cases ts with
    | nil => simp at h
    | cons a as =>
      simp at h
      rw [← h.2]
      exact ⟨[a], rfl⟩

/-- The subtree of the C9 witness: the children of `1 , 2`. -/
def c9Tt : Subtree Unit :=
  ⟨Delimiter.unspecified,
    [.leaf (.ident ⟨"1", ()⟩), .leaf (.punct ⟨',', .Alone, ()⟩),
     .leaf (.ident ⟨"2", ()⟩)]⟩

/-- Witness for C9 at the children of `1 , 2` with separator `,`. -/
theorem parse_exprs_with_sep_spec_witness :
    c9Tt.tokenTrees ≠ [] ∧
    (parse_exprs_with_sep c9Tt ',' headFragment =
      (parseExprsLoop headFragment ',' c9Tt.tokenTrees).1 ++
        (if (parseExprsLoop headFragment ',' c9Tt.tokenTrees).2.isEmpty then []
         else [⟨Delimiter.unspecified,
           (parseExprsLoop headFragment ',' c9Tt.tokenTrees).2⟩]) ∧
    (parseExprsLoop headFragment ',' c9Tt.tokenTrees).2.IsSuffix c9Tt.tokenTrees ∧
    (∀ (t0 : TokenTree Unit) (ts0 : List (TokenTree Unit)),
      headFragment.parse (t0 :: ts0) = none →
      parseExprsLoop headFragment ',' (t0 :: ts0) = ([], t0 :: ts0)) ∧
    (∀ (t0 : TokenTree Unit) (ts0 : List (TokenTree Unit)) (t : TokenTree Unit)
        (rest : List (TokenTree Unit)),
      headFragment.parse (t0 :: ts0) = some (t, rest) →
      expect_char ',' rest = none →
      parseExprsLoop headFragment ',' (t0 :: ts0) = ([subtree_or_wrap t], rest)) ∧
    (∀ (t0 : TokenTree Unit) (ts0 : List (TokenTree Unit)) (t : TokenTree Unit)
        (rest rest2 : List (TokenTree Unit)),
      headFragment.parse (t0 :: ts0) = some (t, rest) →
      expect_char ',' rest = some rest2 →
      parseExprsLoop headFragment ',' (t0 :: ts0) =
        (subtree_or_wrap t :: (parseExprsLoop headFragment ',' rest2).1,
          (parseExprsLoop headFragment ',' rest2).2)) ∧
    (∀ (ts rest2 : List (TokenTree Unit)), expect_char ',' ts = some rest2 →
      ∃ pc, ts = TokenTree.leaf (.punct pc) :: rest2 ∧ pc.char = ',')) :=
  ⟨by simp [c9Tt],
    parse_exprs_with_sep_spec c9Tt ',' headFragment (by simp [c9Tt])⟩

end Mbe